import Mathlib

/-!
Verification of the image-gallery telegram bot (`telegram-bot/bot.py`)
against its natural-language specification.

Python strings are modelled as `List Char`; Python's `str.endswith`,
`str.startswith` and `str.lower` become suffix/prefix tests and a
character-wise map.  The git subprocess pipeline of `commit_to_github`
is modelled twice, at two granularities:

* an *outcome-trace* model (`runGit`): every `subprocess.run` call site
  gets an independent success flag from a `GitEnv`; the model records
  the sequence of git commands actually issued and whether the whole
  pipeline raised; and

* a *semantic* model of the branch-repair phase (`ensure_main`) over an
  idealized git repository state, where `git checkout main` succeeds
  exactly when branch `main` exists and `git checkout -b main` succeeds
  exactly when it does not.
-/

namespace ImageGallery

/-! ## Python string primitives -/

/-- Python `str` modelled as a list of characters. -/
abbrev PyStr := List Char

/-- Python `s.lower()`. -/
def pyLower (s : PyStr) : PyStr := s.map Char.toLower

/-- Python `s.endswith(suf)`. -/
def pyEndsWith (s suf : PyStr) : Bool := List.isSuffixOf suf s

/-- Python `s.startswith(pre)`. -/
def pyStartsWith (s pre : PyStr) : Bool := List.isPrefixOf pre s

/-! ## File Materializer: extension resolution (bot.py lines 145-156) -/

def extJpg : PyStr := (".jpg").toList
def extJpeg : PyStr := (".jpeg").toList
def extPng : PyStr := (".png").toList
def extGif : PyStr := (".gif").toList
def extWebp : PyStr := (".webp").toList

/-- The tuple `image_extensions` of bot.py line 175, in source order. -/
def imageExts : List PyStr := [extJpg, extJpeg, extPng, extGif, extWebp]

/-- `ImageBot.get_file_extension` (bot.py lines 145-156): cascade of
`endswith` tests on the hinted file path, defaulting to `.jpg`. -/
def get_file_extension (file_path : PyStr) : PyStr :=
  if pyEndsWith file_path extJpg || pyEndsWith file_path extJpeg then extJpg
  else if pyEndsWith file_path extPng then extPng
  else if pyEndsWith file_path extGif then extGif
  else if pyEndsWith file_path extWebp then extWebp
  else extJpg

/-! ## Metadata Recorder (bot.py lines 158-180) -/

/-- The images directory as seen by `os.listdir`: `none` when the
directory does not exist, otherwise the list of entry names. -/
abbrev DirListing := Option (List PyStr)

/-- `ImageBot.count_images` (bot.py lines 170-180): 0 when the images
directory is missing, otherwise the number of entries whose lowercased
name ends with one of the five extensions of the `image_extensions`
tuple (Python's `str.endswith` on a tuple is a disjunction). -/
def count_images (dir : DirListing) : Nat :=
  match dir with
  | none => 0
  | some files => files.countP (fun f => imageExts.any (fun e => pyEndsWith (pyLower f) e))

/-- The metadata record written by `update_metadata` (bot.py lines 160-165). -/
structure Metadata where
  last_image : PyStr
  last_updated : PyStr
  uploaded_by : PyStr
  total_images : Nat
deriving Repr, DecidableEq

/-- `ImageBot.update_metadata` (bot.py lines 158-168): builds the record
written (whole-record overwrite) to the metadata file.  The record's
`total_images` field is recomputed from the directory listing by
`count_images`; the previous record is never read. -/
def update_metadata (filename username now : PyStr) (dir : DirListing) : Metadata :=
  { last_image := filename
    last_updated := now
    uploaded_by := username
    total_images := count_images dir }

/-! ## Spec-side definitions used for refinement comparisons -/

/-- Spec §8: a file is recognized when its lowercase name ends in one of
`.jpg/.jpeg/.png/.gif/.webp` (written as the spec enumerates it). -/
def specIsRecognized (name : PyStr) : Bool :=
  pyEndsWith (pyLower name) extJpg || pyEndsWith (pyLower name) extJpeg ||
  pyEndsWith (pyLower name) extPng || pyEndsWith (pyLower name) extGif ||
  pyEndsWith (pyLower name) extWebp

/-- Spec §8 count: the number of files in the asset directory whose
lowercase name ends in one of the five recognized extensions (0 files
when the directory is absent). -/
def specImageCount (dir : DirListing) : Nat :=
  match dir with
  | none => 0
  | some files => (files.filter specIsRecognized).length

/-- Spec §4.1 extension mapping, written following the spec's words
("map `.jpg`/`.jpeg`→`.jpg`, `.png`→`.png`, `.gif`→`.gif`,
`.webp`→`.webp`; any other or missing suffix defaults to `.jpg`"),
deliberately checking the cases in a different order than the source
(longest suffixes first) so that agreement with the source cascade is a
genuine disjointness fact, not a restatement. -/
def spec_extension (p : PyStr) : PyStr :=
  if pyEndsWith p extJpeg then extJpg
  else if pyEndsWith p extWebp then extWebp
  else if pyEndsWith p extGif then extGif
  else if pyEndsWith p extPng then extPng
  else if pyEndsWith p extJpg then extJpg
  else extJpg

/-! ## Publish Coordinator, outcome-trace model (bot.py lines 182-263)

Each `subprocess.run([...git...], check=True)` call site is given an
independent outcome by a `GitEnv`.  `runGit` replays the control flow of
the body of `commit_to_github` (the inner `try` of lines 190-252),
recording the commands issued and whether a `CalledProcessError`
escaped; an escaping error is converted by the outer `except` (lines
258-263) into a raised `Exception`. -/

/-- One git command kind issued by `commit_to_github`. -/
inductive GitCmd
  | configName | configEmail | remoteGetUrl | remoteAdd | showCurrent
  | checkoutMain | checkoutBMain | pull | add | commit | push | forcePush
deriving Repr, DecidableEq

/-- Outcomes of every `subprocess.run` call site in `commit_to_github`,
one field per textual call site of bot.py.  `showCurrentRes` is `none`
when `git branch --show-current` raises, otherwise its stripped stdout. -/
structure GitEnv where
  configNameOk : Bool      -- line 192
  configEmailOk : Bool     -- line 193
  remoteGetUrlOk : Bool    -- line 197
  remoteAddOk : Bool       -- line 201
  showCurrentRes : Option String  -- line 205
  checkout1Ok : Bool       -- line 210 (detached case, first attempt)
  checkoutB1Ok : Bool      -- line 213 (detached case, create main)
  checkout2Ok : Bool       -- line 217 (named branch differs from main)
  checkout3Ok : Bool       -- line 222 (outer except handler, first attempt)
  checkoutB2Ok : Bool      -- line 225 (outer except handler, create main)
  pullOk : Bool            -- line 230
  addOk : Bool             -- line 238
  commitOk : Bool          -- line 242
  pushOk : Bool            -- line 246
  forcePushOk : Bool       -- line 251
deriving Repr, DecidableEq

/-- A partial run: commands issued so far, and whether control is still
flowing normally (`true`) or an uncaught `CalledProcessError` is
propagating (`false`). -/
abbrev GitRun := List GitCmd × Bool

/-- Sequencing: the second phase runs only if the first completed. -/
def seqT (a b : GitRun) : GitRun :=
  if a.2 then (a.1 ++ b.1, b.2) else a

/-- Step 1, identity configuration (lines 192-193): two bare
`check=True` runs, no local handler. -/
def step1 (env : GitEnv) : GitRun :=
  if env.configNameOk then
    ([GitCmd.configName, GitCmd.configEmail], env.configEmailOk)
  else ([GitCmd.configName], false)

/-- Step 2, ensure remote registered (lines 196-201): a failing
`get-url` is caught and answered with `remote add`, itself `check=True`
with no handler. -/
def step2 (env : GitEnv) : GitRun :=
  if env.remoteGetUrlOk then ([GitCmd.remoteGetUrl], true)
  else ([GitCmd.remoteGetUrl, GitCmd.remoteAdd], env.remoteAddOk)

/-- Body of the branch-repair `try` (lines 204-218). -/
def step3body (env : GitEnv) : GitRun :=
  match env.showCurrentRes with
  | none => ([GitCmd.showCurrent], false)
  | some cb =>
    if cb == "" then
      if env.checkout1Ok then ([GitCmd.showCurrent, GitCmd.checkoutMain], true)
      else ([GitCmd.showCurrent, GitCmd.checkoutMain, GitCmd.checkoutBMain], env.checkoutB1Ok)
    else if cb != "main" then
      ([GitCmd.showCurrent, GitCmd.checkoutMain], env.checkout2Ok)
    else ([GitCmd.showCurrent], true)

/-- Step 3, branch repair (lines 203-226): the body above, with the
`except` handler of lines 219-226 retrying `checkout main` and falling
back to `checkout -b main` whenever any command of the body raised. -/
def step3 (env : GitEnv) : GitRun :=
  if (step3body env).2 then step3body env
  else if env.checkout3Ok then ((step3body env).1 ++ [GitCmd.checkoutMain], true)
  else ((step3body env).1 ++ [GitCmd.checkoutMain, GitCmd.checkoutBMain], env.checkoutB2Ok)

/-- Step 4, rebase-pull (lines 229-235): the failure is caught and only
logged (`pass`), so the phase always completes. -/
def step4 (_env : GitEnv) : GitRun := ([GitCmd.pull], true)

/-- Step 5, stage all changes (line 238): bare `check=True`, no handler. -/
def step5 (env : GitEnv) : GitRun := ([GitCmd.add], env.addOk)

/-- Step 6, commit (line 242): bare `check=True`, no handler. -/
def step6 (env : GitEnv) : GitRun := ([GitCmd.commit], env.commitOk)

/-- Step 7, push with one forced retry (lines 245-252). -/
def step7 (env : GitEnv) : GitRun :=
  if env.pushOk then ([GitCmd.push], true)
  else ([GitCmd.push, GitCmd.forcePush], env.forcePushOk)

/-- The full git body of `commit_to_github` (lines 190-252). -/
def runGit (env : GitEnv) : GitRun :=
  seqT (step1 env) (seqT (step2 env) (seqT (step3 env) (seqT (step4 env)
    (seqT (step5 env) (seqT (step6 env) (step7 env))))))

/-- Mutable process state relevant to `commit_to_github`: the working
directory of the process. -/
structure PyState where
  cwd : String
deriving Repr, DecidableEq

/-- `ImageBot.commit_to_github` (lines 182-263): `os.chdir` into the
repository root, run the git body, and restore the original working
directory in the `finally` block (lines 254-256) on both the normal and
the exceptional path; an escaping `CalledProcessError` is re-raised as
`Exception` by the outer handler (lines 258-263). -/
def commit_to_github (st : PyState) (repoRoot : String) (env : GitEnv) :
    (List GitCmd × Except String Unit) × PyState :=
  let original_cwd := st.cwd
  let _st1 : PyState := { cwd := repoRoot }
  let r := runGit env
  let st2 : PyState := { cwd := original_cwd }
  if r.2 then ((r.1, Except.ok ()), st2)
  else ((r.1, Except.error ("Ошибка при сохранении в GitHub")), st2)

/-! ## Publish Coordinator, semantic model of branch repair

An idealized git repository for the branch-repair phase: `git branch
--show-current` prints the current branch, or the empty string on a
detached HEAD; `git checkout main` succeeds exactly when branch `main`
exists; `git checkout -b main` succeeds exactly when it does not.
Failing commands leave the state unchanged. -/

/-- Branch state of the repository: the checked-out branch (`none` for
a detached HEAD) and the set of existing local branches. -/
structure RepoState where
  current : Option String
  branches : List String
deriving Repr, DecidableEq

/-- Output of `git branch --show-current`. -/
def showCurrent (s : RepoState) : String :=
  match s.current with
  | none => ""
  | some b => b

/-- `git checkout main`: succeeds iff `main` exists. -/
def checkoutMainCmd (s : RepoState) : Option RepoState :=
  if s.branches.contains ("main") then some { s with current := some ("main") }
  else none

/-- `git checkout -b main`: succeeds iff `main` does not exist yet. -/
def checkoutBMainCmd (s : RepoState) : Option RepoState :=
  if s.branches.contains ("main") then none
  else some { current := some ("main"), branches := ("main") :: s.branches }

/-- Body of the branch-repair `try` of lines 204-218, over the
semantic repository state (`none` = a command raised). -/
def ensure_main_body (s : RepoState) : Option RepoState :=
  let current_branch := showCurrent s
  if current_branch == "" then
    match checkoutMainCmd s with
    | some s2 => some s2
    | none => checkoutBMainCmd s
  else if current_branch != "main" then checkoutMainCmd s
  else some s

/-- Branch repair, lines 203-226: the body plus the `except` handler of
lines 219-226.  A command that fails leaves the repository state
unchanged, so the handler starts from the original state. -/
def ensure_main (s : RepoState) : Option RepoState :=
  match ensure_main_body s with
  | some s2 => some s2
  | none =>
    match checkoutMainCmd s with
    | some s2 => some s2
    | none => checkoutBMainCmd s

/-! ## Startup configuration check (bot.py lines 314-322) -/

/-- The process environment: a list of (name, value) bindings.
`getenvOpt` is Python's `os.getenv`: `none` when the name is absent. -/
abbrev OsEnv := List (String × String)

def getenvOpt (env : OsEnv) (k : String) : Option String :=
  (env.find? (fun p => p.1 == k)).map Prod.snd

/-- Python truthiness of an `os.getenv` result: `None` and the empty
string are falsy (`not os.getenv(var)` in line 317). -/
def envTruthy (v : Option String) : Bool :=
  match v with
  | none => false
  | some s => !(s == "")

/-- `required_vars` of bot.py line 316, in source order. -/
def required_vars : List String :=
  ["TELEGRAM_BOT_TOKEN", "GITHUB_TOKEN", "GITHUB_USERNAME", "GITHUB_EMAIL"]

/-- `missing_vars` of bot.py line 317: the required names whose
`os.getenv` value is falsy. -/
def missing_vars (env : OsEnv) : List String :=
  required_vars.filter (fun v => !(envTruthy (getenvOpt env v)))

/-- Result of the `__main__` guard (lines 314-322). -/
inductive StartupResult
  | exited (printed : List String) (code : Nat)
  | started
deriving Repr, DecidableEq

/-- The `__main__` guard: when `missing_vars` is nonempty, print the
missing names and `exit(1)`; otherwise construct and run the bot. -/
def startup_check (env : OsEnv) : StartupResult :=
  if missing_vars env ≠ [] then StartupResult.exited (missing_vars env) 1
  else StartupResult.started

/-! ## Document handler (bot.py lines 99-108) and ingestion effects -/

/-- An inbound Telegram document: its declared mime type and its file id.
Only the declared label is available to `handle_document`. -/
structure TgDocument where
  mime_type : PyStr
  file_id : PyStr
deriving Repr, DecidableEq

/-- Observable effects of the per-event handlers. -/
inductive BotEffect
  | reply (msg : PyStr)
  | materialize (file_id : PyStr)
  | recordMetadata
  | publish
deriving Repr, DecidableEq

/-- The fixed refusal reply of bot.py line 105. -/
def rejection_reply : PyStr := ("❌ Пожалуйста, отправьте картинку!").toList

/-- The processing placeholder reply of bot.py line 114. -/
def processing_reply : PyStr := ("⏳ Обрабатываю картинку...").toList

def image_mime_head : PyStr := ("image/").toList

/-- Effects of `process_image` (lines 110-143) on the accepted path:
placeholder reply, download to disk, metadata update, publish. -/
def process_image_effects (file_id : PyStr) : List BotEffect :=
  [BotEffect.reply processing_reply, BotEffect.materialize file_id,
   BotEffect.recordMetadata, BotEffect.publish]

/-- `ImageBot.handle_document` (lines 99-108): reject and return when
the declared mime type does not start with `image/`, otherwise hand the
file id to `process_image`. -/
def handle_document (d : TgDocument) : List BotEffect :=
  if !(pyStartsWith d.mime_type image_mime_head) then
    [BotEffect.reply rejection_reply]
  else process_image_effects d.file_id

/-! ## File Materializer: filename construction and write (lines 119-128)

`file.download_to_drive(path)` overwrites an existing file at `path`
without any collision check, so the store below is an overwriting map
from filenames to contents. -/

/-- A flat images directory: filename ↦ content (contents abstracted to
`Nat` tags). -/
abbrev FileStore := List (PyStr × Nat)

def readFile (fs : FileStore) (name : PyStr) : Option Nat :=
  (fs.find? (fun p => p.1 == name)).map Prod.snd

/-- An unconditional overwrite, as `download_to_drive` performs. -/
def writeFile (fs : FileStore) (name : PyStr) (content : Nat) : FileStore :=
  (name, content) :: fs.filter (fun p => !(p.1 == name))

def image_head : PyStr := ("image_").toList

/-- The filename of bot.py line 122: `image_<timestamp><extension>`,
where the timestamp is `datetime.now().strftime("%Y%m%d_%H%M%S")`
(one-second resolution). -/
def make_filename (timestamp : PyStr) (hinted_path : PyStr) : PyStr :=
  image_head ++ timestamp ++ get_file_extension hinted_path

/-- Materialization inside `process_image` (lines 119-128): compute the
name from the wall-clock second and the hinted path, then download
(overwrite) to that name.  Returns the new store and the filename. -/
def materialize_image (fs : FileStore) (timestamp hinted_path : PyStr)
    (content : Nat) : FileStore × PyStr :=
  let filename := make_filename timestamp hinted_path
  (writeFile fs filename content, filename)

/-! ## Helper lemmas -/

/-- Two distinct recognized extensions are never both suffixes of the
same path: the five extensions are pairwise non-suffix-comparable. -/
theorem ext_suffix_excl {p e₁ e₂ : PyStr} (h₁ : e₁ ∈ imageExts) (h₂ : e₂ ∈ imageExts)
    (hne : e₁ ≠ e₂) (s₁ : pyEndsWith p e₁ = true) (s₂ : pyEndsWith p e₂ = true) : False := by
  rw [pyEndsWith, List.isSuffixOf_iff_suffix] at s₁ s₂
  have htot := List.suffix_or_suffix_of_suffix s₁ s₂
  fin_cases h₁ <;> fin_cases h₂ <;>
    first
      | exact hne rfl
      | rcases htot with h | h <;> revert h <;> decide

/-- If a path ends with one recognized extension, it does not end with
any other. -/
theorem not_ends_of_ends {p e₁ e₂ : PyStr} (h₁ : e₁ ∈ imageExts) (h₂ : e₂ ∈ imageExts)
    (hne : e₁ ≠ e₂) (s : pyEndsWith p e₁ = true) : pyEndsWith p e₂ = false := by
  cases hh : pyEndsWith p e₂
  · rfl
  · exact (ext_suffix_excl h₁ h₂ hne s hh).elim

/-- The recognized extensions are lowercase-invariant. -/
theorem ext_lower_fixed {e : PyStr} (he : e ∈ imageExts) : pyLower e = e := by
  fin_cases he <;> decide

/-- No recognized extension is a proper suffix of another. -/
theorem ext_suffix_eq {x y : PyStr} (hx : x ∈ imageExts) (hy : y ∈ imageExts)
    (h : x <:+ y) : x = y := by
  fin_cases hx <;> fin_cases hy <;> first | rfl | (revert h; decide)

/-- Sequencing succeeds exactly when both phases do. -/
theorem seqT_ok (a b : GitRun) : (seqT a b).2 = (a.2 && b.2) := by
  unfold seqT; cases h : a.2 <;> simp [h]

/-- A successful phase prepends its trace. -/
theorem seqT_of_ok {a : GitRun} (b : GitRun) (h : a.2 = true) :
    seqT a b = (a.1 ++ b.1, b.2) := by
  unfold seqT; rw [if_pos h]

/-- A failed phase stops the pipeline. -/
theorem seqT_of_fail {a : GitRun} (b : GitRun) (h : a.2 = false) : seqT a b = a := by
  unfold seqT; rw [if_neg (by simp [h])]

/-- A command of `seqT a b` comes from one of the phases. -/
theorem mem_seqT {c : GitCmd} {a b : GitRun} (h : c ∈ (seqT a b).1) :
    c ∈ a.1 ∨ c ∈ b.1 := by
  unfold seqT at h
  split at h
  · simpa using h
  · exact Or.inl h

theorem step1_ok (env : GitEnv) :
    (step1 env).2 = (env.configNameOk && env.configEmailOk) := by
  unfold step1; cases env.configNameOk <;> simp

theorem step2_ok (env : GitEnv) :
    (step2 env).2 = (env.remoteGetUrlOk || env.remoteAddOk) := by
  unfold step2; cases env.remoteGetUrlOk <;> simp

theorem step3_ok (env : GitEnv) :
    (step3 env).2 = ((step3body env).2 || env.checkout3Ok || env.checkoutB2Ok) := by
  unfold step3
  cases h : (step3body env).2 <;> cases h3 : env.checkout3Ok <;> simp [h, h3]

theorem step7_ok (env : GitEnv) :
    (step7 env).2 = (env.pushOk || env.forcePushOk) := by
  unfold step7; cases env.pushOk <;> simp

/-- Success of the whole git body, characterized per call-site flag. -/
theorem runGit_ok (env : GitEnv) :
    (runGit env).2 = ((env.configNameOk && env.configEmailOk) &&
      ((env.remoteGetUrlOk || env.remoteAddOk) &&
      (((step3body env).2 || env.checkout3Ok || env.checkoutB2Ok) &&
      (env.addOk && (env.commitOk && (env.pushOk || env.forcePushOk)))))) := by
  rw [runGit, seqT_ok, seqT_ok, seqT_ok, seqT_ok, seqT_ok, seqT_ok,
    step1_ok, step2_ok, step3_ok, step7_ok]
  simp [step4, step5, step6]

/-- The commands a phase can issue. -/
theorem step1_cmds (env : GitEnv) {c : GitCmd} (h : c ∈ (step1 env).1) :
    c = GitCmd.configName ∨ c = GitCmd.configEmail := by
  unfold step1 at h
  split at h <;> (simp at h; tauto)

theorem step2_cmds (env : GitEnv) {c : GitCmd} (h : c ∈ (step2 env).1) :
    c = GitCmd.remoteGetUrl ∨ c = GitCmd.remoteAdd := by
  unfold step2 at h
  split at h <;> (simp at h; tauto)

theorem step3body_cmds (env : GitEnv) {c : GitCmd} (h : c ∈ (step3body env).1) :
    c = GitCmd.showCurrent ∨ c = GitCmd.checkoutMain ∨ c = GitCmd.checkoutBMain := by
  unfold step3body at h
  split at h
  · simp at h; tauto
  · split at h
    · split at h <;> (simp at h; tauto)
    · split at h <;> (simp at h; tauto)

theorem step3_cmds (env : GitEnv) {c : GitCmd} (h : c ∈ (step3 env).1) :
    c = GitCmd.showCurrent ∨ c = GitCmd.checkoutMain ∨ c = GitCmd.checkoutBMain := by
  unfold step3 at h
  split at h
  · exact step3body_cmds env h
  · split at h <;>
      rcases List.mem_append.mp h with h' | h' <;>
      first
        | exact step3body_cmds env h'
        | (simp at h'; tauto)

/-! ## Claim theorems -/

/-- The per-file predicate of `count_images` agrees with the spec's
"lowercased name ends in one of the five recognized extensions". -/
theorem recognized_pred (f : PyStr) :
    (imageExts.any (fun e => pyEndsWith (pyLower f) e)) = specIsRecognized f := by
  simp [imageExts, specIsRecognized, Bool.or_assoc]

/-- Claim C4: after every successful call to `update_metadata`, the
`total_images` field of the written record equals the number of files in
the images directory whose lowercased name ends in one of `.jpg`,
`.jpeg`, `.png`, `.gif`, `.webp` — recomputed by scanning the directory
listing (the previous record is not an input at all, so the count cannot
be an incremented counter). -/
theorem c4_total_images_recomputed (filename username now : PyStr) (dir : DirListing) :
    (update_metadata filename username now dir).total_images = specImageCount dir := by
  cases dir with
  | none => rfl
  | some files =>
    show files.countP (fun f => imageExts.any (fun e => pyEndsWith (pyLower f) e)) =
      (files.filter specIsRecognized).length
    rw [show (fun f => imageExts.any (fun e => pyEndsWith (pyLower f) e)) = specIsRecognized
      from funext recognized_pred]
    rw [List.countP_eq_length_filter]

/-- Claim C5: `get_file_extension` maps a hinted path ending in `.jpg`
or `.jpeg` to `.jpg`, `.png` to `.png`, `.gif` to `.gif`, `.webp` to
`.webp`, and every other path to the default `.jpg` — i.e. it agrees
with the spec's order-independent mapping `spec_extension` — and its
result is always one of the recognized extensions. -/
theorem c5_extension_resolution (p : PyStr) :
    get_file_extension p = spec_extension p ∧ get_file_extension p ∈ imageExts := by
  constructor
  · by_cases h2 : pyEndsWith p extJpeg = true
    · simp [get_file_extension, spec_extension, h2]
    · replace h2 : pyEndsWith p extJpeg = false := by simpa using h2
      by_cases h5 : pyEndsWith p extWebp = true
      · have h1 : pyEndsWith p extJpg = false :=
          not_ends_of_ends (by decide) (by decide) (by decide) h5
        have h3 : pyEndsWith p extPng = false :=
          not_ends_of_ends (by decide) (by decide) (by decide) h5
        have h4 : pyEndsWith p extGif = false :=
          not_ends_of_ends (by decide) (by decide) (by decide) h5
        simp [get_file_extension, spec_extension, h1, h2, h3, h4, h5]
      · replace h5 : pyEndsWith p extWebp = false := by simpa using h5
        by_cases h4 : pyEndsWith p extGif = true
        · have h1 : pyEndsWith p extJpg = false :=
            not_ends_of_ends (by decide) (by decide) (by decide) h4
          have h3 : pyEndsWith p extPng = false :=
            not_ends_of_ends (by decide) (by decide) (by decide) h4
          simp [get_file_extension, spec_extension, h1, h2, h3, h4, h5]
        · replace h4 : pyEndsWith p extGif = false := by simpa using h4
          by_cases h3 : pyEndsWith p extPng = true
          · have h1 : pyEndsWith p extJpg = false :=
              not_ends_of_ends (by decide) (by decide) (by decide) h3
            simp [get_file_extension, spec_extension, h1, h2, h3, h4, h5]
          · replace h3 : pyEndsWith p extPng = false := by simpa using h3
            by_cases h1 : pyEndsWith p extJpg = true
            · simp [get_file_extension, spec_extension, h1, h2, h3, h4, h5]
            · replace h1 : pyEndsWith p extJpg = false := by simpa using h1
              simp [get_file_extension, spec_extension, h1, h2, h3, h4, h5]
  · unfold get_file_extension
    split_ifs <;> decide

/-- Claim C8: a document whose declared mime type does not start with
`image/` is answered with the fixed refusal reply and nothing else: no
materialization, no metadata update, no publish; and the decision
depends only on the declared mime type. -/
theorem c8_nonimage_document_rejected (d : TgDocument)
    (h : pyStartsWith d.mime_type image_mime_head = false) :
    handle_document d = [BotEffect.reply rejection_reply] ∧
    (∀ fid, BotEffect.materialize fid ∉ handle_document d) ∧
    BotEffect.recordMetadata ∉ handle_document d ∧
    BotEffect.publish ∉ handle_document d ∧
    (∀ d2 : TgDocument, d2.mime_type = d.mime_type →
      handle_document d2 = [BotEffect.reply rejection_reply]) := by
  have hd : handle_document d = [BotEffect.reply rejection_reply] := by
    unfold handle_document
    rw [h]
    rfl
  refine ⟨hd, ?_, ?_, ?_, ?_⟩
  · intro fid; simp [hd]
  · simp [hd]
  · simp [hd]
  · intro d2 h2
    unfold handle_document
    rw [h2, h]
    rfl

def docPlainText : TgDocument :=
  { mime_type := ("text/plain").toList, file_id := ("file1").toList }

/-- Witness for C8: the spec's `text/plain` scenario. -/
theorem c8_witness : handle_document docPlainText = [BotEffect.reply rejection_reply] :=
  (c8_nonimage_document_rejected docPlainText (by decide)).1

/-- Both branches of an `if` that agree on the second component. -/
theorem ite_pair_snd {α β : Type} (c : Prop) [Decidable c] (a b : α) (s : β) :
    (if c then (a, s) else (b, s)).2 = s := by
  split <;> rfl

/-- Claim C9: `commit_to_github` restores the process working directory
to its pre-call value on both the success and the failure path (the
`finally` block always runs), for every outcome environment. -/
theorem c9_cwd_restored (st : PyState) (repoRoot : String) (env : GitEnv) :
    (commit_to_github st repoRoot env).2 = st ∧
    ((commit_to_github st repoRoot env).2).cwd = st.cwd := by
  have h1 : (commit_to_github st repoRoot env).2 = st := by
    unfold commit_to_github
    exact ite_pair_snd _ _ _ _
  exact ⟨h1, congrArg PyState.cwd h1⟩

def tsCollide : PyStr := ("20240101_120000").toList
def hintFirst : PyStr := ("alpha.jpg").toList
def hintSecond : PyStr := ("beta.jpg").toList
def ingest1 : FileStore × PyStr := materialize_image [] tsCollide hintFirst 1
def ingest2 : FileStore × PyStr := materialize_image ingest1.1 tsCollide hintSecond 2

/-- Claim C6 (violated by the code, as the spec itself notes): two
ingestions whose timestamps collide at one-second resolution and whose
resolved extensions agree produce the same filename, and the second
`download_to_drive` silently overwrites the first asset — its content is
destroyed. -/
theorem c6_collision_overwrites :
    ingest2.2 = ingest1.2 ∧
    readFile ingest1.1 ingest1.2 = some 1 ∧
    readFile ingest2.1 ingest1.2 = some 2 := by decide

/-- Claim C2: for every starting branch state (detached head, branch
`main` nonexistent, a differently named branch, or already on `main`)
the branch-repair step terminates with the repository on branch `main`;
and in the outcome-trace model, staging (`git add`) only ever runs after
the branch-repair phase completed without an escaping error. -/
theorem c2_branch_repair_converges :
    (∀ s : RepoState, ∃ s2, ensure_main s = some s2 ∧ s2.current = some ("main")) ∧
    (∀ env : GitEnv, GitCmd.add ∈ (runGit env).1 → (step3 env).2 = true) := by
  constructor
  · intro s
    obtain ⟨cur, brs⟩ := s
    cases cur with
    | none =>
      by_cases h : ("main" : String) ∈ brs <;>
        simp [ensure_main, ensure_main_body, showCurrent, checkoutMainCmd, checkoutBMainCmd, h]
    | some b =>
      by_cases hb : b = "main"
      · subst hb
        simp [ensure_main, ensure_main_body, showCurrent, checkoutMainCmd, checkoutBMainCmd]
      · by_cases hb0 : b = ""
        · subst hb0
          by_cases h : ("main" : String) ∈ brs <;>
            simp [ensure_main, ensure_main_body, showCurrent, checkoutMainCmd,
              checkoutBMainCmd, h]
        · by_cases h : ("main" : String) ∈ brs <;>
            simp [ensure_main, ensure_main_body, showCurrent, checkoutMainCmd,
              checkoutBMainCmd, h, hb, hb0]
  · intro env hadd
    by_contra hfail
    rw [Bool.not_eq_true] at hfail
    rw [runGit, seqT_of_fail _ hfail] at hadd
    rcases mem_seqT hadd with h | h
    · rcases step1_cmds env h with h' | h' <;> exact absurd h' (by decide)
    · rcases mem_seqT h with h2 | h2
      · rcases step2_cmds env h2 with h' | h' <;> exact absurd h' (by decide)
      · rcases step3_cmds env h2 with h' | h' | h' <;> exact absurd h' (by decide)

def envOnMain : GitEnv :=
  { configNameOk := true, configEmailOk := true, remoteGetUrlOk := true,
    remoteAddOk := true, showCurrentRes := some ("main"), checkout1Ok := true,
    checkoutB1Ok := true, checkout2Ok := true, checkout3Ok := true,
    checkoutB2Ok := true, pullOk := true, addOk := true, commitOk := true,
    pushOk := true, forcePushOk := true }

/-- Witness for C2: a run that reaches staging did pass branch repair. -/
theorem c2_witness : (step3 envOnMain).2 = true :=
  c2_branch_repair_converges.2 envOnMain (by decide)

/-- Claim C7 counterexample: with `GITHUB_EMAIL` present in the
environment but bound to the empty string, nothing is unset, yet the
startup check exits and prints the name of a variable that is actually
set — refuting "printing ... no name of a variable that is actually
set". -/
def envEmptyEmail : OsEnv :=
  [("TELEGRAM_BOT_TOKEN", "t"), ("GITHUB_TOKEN", "g"),
   ("GITHUB_USERNAME", "u"), ("GITHUB_EMAIL", "")]

theorem c7_counterexample :
    (getenvOpt envEmptyEmail ("GITHUB_EMAIL")).isSome = true ∧
    startup_check envEmptyEmail = StartupResult.exited [("GITHUB_EMAIL")] 1 := by
  constructor
  · rfl
  · rfl

/-- Claim C7 (amended): if any required configuration value (bot token,
host token, committer username, committer email) is unset *or set to
the empty string*, the process exits with status 1 after printing
exactly the required names whose value is unset or empty; the
repository identifier and the port are not among the required names. -/
theorem c7_missing_vars_abort (env : OsEnv) (h : missing_vars env ≠ []) :
    startup_check env = StartupResult.exited (missing_vars env) 1 ∧
    (∀ v ∈ missing_vars env, v ∈ required_vars ∧ envTruthy (getenvOpt env v) = false) ∧
    (∀ v ∈ required_vars, envTruthy (getenvOpt env v) = false → v ∈ missing_vars env) ∧
    ("GITHUB_REPO") ∉ required_vars ∧ ("PORT") ∉ required_vars := by
  refine ⟨?_, ?_, ?_, by decide, by decide⟩
  · unfold startup_check
    rw [if_pos h]
  · intro v hv
    have hm := List.mem_filter.mp hv
    exact ⟨hm.1, by simpa using hm.2⟩
  · intro v hv hfalse
    exact List.mem_filter.mpr ⟨hv, by simp [hfalse]⟩

def envOnlyBotToken : OsEnv := [("TELEGRAM_BOT_TOKEN", "t")]

/-- Witness for C7: with only the bot token set, startup exits printing
the three other required names. -/
theorem c7_witness :
    startup_check envOnlyBotToken = StartupResult.exited (missing_vars envOnlyBotToken) 1 ∧
    missing_vars envOnlyBotToken = [("GITHUB_TOKEN"), ("GITHUB_USERNAME"), ("GITHUB_EMAIL")] :=
  ⟨(c7_missing_vars_abort envOnlyBotToken (by decide)).1, by decide⟩

/-- Claim C1 counterexample: with every git command succeeding except
`git add .` (step 5, "stage all changes"), the publish aborts: the run
stops at `add` with an escaping error, and `commit_to_github` returns
the error to its caller — refuting "a failure in any of steps 2-5 ...
never causes the publish to abort". -/
def envAddFail : GitEnv :=
  { configNameOk := true, configEmailOk := true, remoteGetUrlOk := true,
    remoteAddOk := true, showCurrentRes := some ("main"), checkout1Ok := true,
    checkoutB1Ok := true, checkout2Ok := true, checkout3Ok := true,
    checkoutB2Ok := true, pullOk := true, addOk := false, commitOk := true,
    pushOk := true, forcePushOk := true }

theorem c1_counterexample :
    runGit envAddFail = ([GitCmd.configName, GitCmd.configEmail, GitCmd.remoteGetUrl,
      GitCmd.showCurrent, GitCmd.pull, GitCmd.add], false) ∧
    ((commit_to_github { cwd := ("/app") } ("/repo") envAddFail).1).2 =
      Except.error ("Ошибка при сохранении в GitHub") := by
  constructor
  · rfl
  · rfl

/-- Claim C1 (amended): a failure in step 1 (identity configuration),
step 5 (stage all changes) or step 6 (commit) aborts the whole publish;
step 4 (rebase-pull) failures are swallowed and never influence the
run at all; the *primary* failures of step 2 (remote check) and step 3
(branch inspection/checkout) are recovered locally by fallback
commands — but if the fallback commands themselves fail, the publish
aborts too. -/
theorem c1_failure_semantics (env : GitEnv) :
    ((env.configNameOk && env.configEmailOk) = false → (runGit env).2 = false) ∧
    (env.addOk = false → (runGit env).2 = false) ∧
    (env.commitOk = false → (runGit env).2 = false) ∧
    (∀ b, runGit { env with pullOk := b } = runGit env) ∧
    ((env.remoteGetUrlOk = false ∧ env.remoteAddOk = true) → (step2 env).2 = true) ∧
    ((env.remoteGetUrlOk || env.remoteAddOk) = false → (runGit env).2 = false) ∧
    ((env.checkout3Ok || env.checkoutB2Ok) = true → (step3 env).2 = true) ∧
    (((step3body env).2 || env.checkout3Ok || env.checkoutB2Ok) = false →
      (runGit env).2 = false) := by
  refine ⟨?_, ?_, ?_, ?_, ?_, ?_, ?_, ?_⟩
  · intro h; rw [runGit_ok, h]; rfl
  · intro h; rw [runGit_ok, h]; simp
  · intro h; rw [runGit_ok, h]; simp
  · intro b; cases env; rfl
  · rintro ⟨hg, ha⟩; rw [step2_ok, hg, ha]; rfl
  · intro h; rw [runGit_ok, h]; simp
  · intro h
    rw [step3_ok]
    rcases Bool.or_eq_true_iff.mp h with hc | hc <;> simp [hc]
  · intro h; rw [runGit_ok, h]; simp

/-- Witness for C1 (amended): the staging-failure abort, concretely. -/
theorem c1_witness : (runGit envAddFail).2 = false :=
  (c1_failure_semantics envAddFail).2.1 rfl

/-- Claim C3: in every publish that reaches the push step with the
initial push failing, exactly one retry happens, it is the forced push,
nothing runs after it, and the run succeeds exactly when the forced
push does (its failure propagates). -/
theorem c3_exactly_one_forced_retry (env : GitEnv)
    (h1 : env.configNameOk = true) (h2 : env.configEmailOk = true)
    (h3 : (env.remoteGetUrlOk || env.remoteAddOk) = true)
    (h4 : ((step3body env).2 || env.checkout3Ok || env.checkoutB2Ok) = true)
    (h5 : env.addOk = true) (h6 : env.commitOk = true)
    (h7 : env.pushOk = false) :
    (runGit env).1.count GitCmd.push = 1 ∧
    (runGit env).1.count GitCmd.forcePush = 1 ∧
    (runGit env).1.getLast? = some GitCmd.forcePush ∧
    (runGit env).2 = env.forcePushOk := by
  have hs1 : (step1 env).2 = true := by rw [step1_ok, h1, h2]; rfl
  have hs2 : (step2 env).2 = true := by rw [step2_ok, h3]
  have hs3 : (step3 env).2 = true := by rw [step3_ok, h4]
  have hs4 : (step4 env).2 = true := rfl
  have hs5 : (step5 env).2 = true := h5
  have hs6 : (step6 env).2 = true := h6
  have hs7 : step7 env = ([GitCmd.push, GitCmd.forcePush], env.forcePushOk) := by
    simp [step7, h7]
  have htr : runGit env = ((step1 env).1 ++ ((step2 env).1 ++ ((step3 env).1 ++
      ([GitCmd.pull] ++ ([GitCmd.add] ++ ([GitCmd.commit] ++
        [GitCmd.push, GitCmd.forcePush]))))), env.forcePushOk) := by
    rw [runGit, hs7, seqT_of_ok _ hs1, seqT_of_ok _ hs2, seqT_of_ok _ hs3,
      seqT_of_ok _ hs4, seqT_of_ok _ hs5, seqT_of_ok _ hs6]
    rfl
  have hnp1 : GitCmd.push ∉ (step1 env).1 := by
    intro hm; rcases step1_cmds env hm with h | h <;> exact absurd h (by decide)
  have hnp2 : GitCmd.push ∉ (step2 env).1 := by
    intro hm; rcases step2_cmds env hm with h | h <;> exact absurd h (by decide)
  have hnp3 : GitCmd.push ∉ (step3 env).1 := by
    intro hm; rcases step3_cmds env hm with h | h | h <;> exact absurd h (by decide)
  have hnf1 : GitCmd.forcePush ∉ (step1 env).1 := by
    intro hm; rcases step1_cmds env hm with h | h <;> exact absurd h (by decide)
  have hnf2 : GitCmd.forcePush ∉ (step2 env).1 := by
    intro hm; rcases step2_cmds env hm with h | h <;> exact absurd h (by decide)
  have hnf3 : GitCmd.forcePush ∉ (step3 env).1 := by
    intro hm; rcases step3_cmds env hm with h | h | h <;> exact absurd h (by decide)
  refine ⟨?_, ?_, ?_, ?_⟩
  · rw [htr]
    simp [List.count_append, List.count_eq_zero.mpr hnp1, List.count_eq_zero.mpr hnp2,
      List.count_eq_zero.mpr hnp3]
  · rw [htr]
    simp [List.count_append, List.count_eq_zero.mpr hnf1, List.count_eq_zero.mpr hnf2,
      List.count_eq_zero.mpr hnf3]
  · rw [htr]
    simp [List.getLast?_append]
  · rw [htr]

def envPushFail : GitEnv :=
  { configNameOk := true, configEmailOk := true, remoteGetUrlOk := true,
    remoteAddOk := true, showCurrentRes := some ("main"), checkout1Ok := true,
    checkoutB1Ok := true, checkout2Ok := true, checkout3Ok := true,
    checkoutB2Ok := true, pullOk := true, addOk := true, commitOk := true,
    pushOk := false, forcePushOk := true }

/-- Witness for C3: a concrete failed-push run with a successful forced
retry. -/
theorem c3_witness :
    (runGit envPushFail).1.count GitCmd.forcePush = 1 ∧ (runGit envPushFail).2 = true := by
  have h := c3_exactly_one_forced_retry envPushFail rfl rfl rfl (by decide) rfl rfl rfl
  exact ⟨h.2.1, h.2.2.2⟩

/-- Claim C10: `get_file_extension` matches suffixes case-sensitively:
a hinted path ending in an uppercase or mixed-case variant of a
recognized extension (a suffix whose lowercasing is recognized but
which is not itself one of the lowercase extensions) resolves to the
default `.jpg`, while `count_images` — which lowercases names before
testing — counts that same name as an image. -/
theorem c10_case_sensitive_resolution (p v : PyStr)
    (hvp : pyEndsWith p v = true) (hlv : pyLower v ∈ imageExts) (hv : v ∉ imageExts) :
    get_file_extension p = extJpg ∧ count_images (some [p]) = 1 := by
  rw [pyEndsWith, List.isSuffixOf_iff_suffix] at hvp
  have hnone : ∀ e ∈ imageExts, pyEndsWith p e = false := by
    intro e he
    cases hh : pyEndsWith p e
    · rfl
    exfalso
    rw [pyEndsWith, List.isSuffixOf_iff_suffix] at hh
    rcases List.suffix_or_suffix_of_suffix hvp hh with h | h
    · have hmap : pyLower v <:+ pyLower e := List.IsSuffix.map Char.toLower h
      rw [ext_lower_fixed he] at hmap
      have heq := ext_suffix_eq hlv he hmap
      have hlen : v.length = e.length := by
        simpa [pyLower] using congrArg List.length heq
      exact hv (by rw [List.IsSuffix.eq_of_length h hlen]; exact he)
    · have hmap : pyLower e <:+ pyLower v := List.IsSuffix.map Char.toLower h
      rw [ext_lower_fixed he] at hmap
      have heq := ext_suffix_eq he hlv hmap
      have hlen : e.length = v.length := by
        simpa [pyLower] using congrArg List.length heq
      have hev : e = v := List.IsSuffix.eq_of_length h hlen
      exact hv (hev ▸ he)
  constructor
  · have f1 := hnone extJpg (by decide)
    have f2 := hnone extJpeg (by decide)
    have f3 := hnone extPng (by decide)
    have f4 := hnone extGif (by decide)
    have f5 := hnone extWebp (by decide)
    simp [get_file_extension, f1, f2, f3, f4, f5]
  · have hplow : pyEndsWith (pyLower p) (pyLower v) = true := by
      rw [pyEndsWith, List.isSuffixOf_iff_suffix]
      exact List.IsSuffix.map Char.toLower hvp
    have hany : imageExts.any (fun e => pyEndsWith (pyLower p) e) = true :=
      List.any_eq_true.mpr ⟨pyLower v, hlv, hplow⟩
    simp [count_images, hany]

def pathUpperPng : PyStr := ("x.PNG").toList
def varUpperPng : PyStr := (".PNG").toList

/-- Witness for C10: `x.PNG` resolves to `.jpg` but is counted as an
image. -/
theorem c10_witness :
    get_file_extension pathUpperPng = extJpg ∧ count_images (some [pathUpperPng]) = 1 :=
  c10_case_sensitive_resolution pathUpperPng varUpperPng (by decide) (by decide) (by decide)

end ImageGallery
